import Mathlib

/-!
# Verification of `delmarva_load_profiles.py`

A shallow embedding of the `Delmarva` class from `delmarva_load_profiles.py`:
downloading daily load-profile text files, parsing them into tables, and
exporting them for the downstream database.

Conventions of the embedding:
* pandas `DataFrame`s are records of a column-name list and a row list
  (each row a list of cells); a cell is a string, a rational number
  (standing for the float values the source manipulates: the arithmetic the
  source performs on them is addition only), a calendar date, or null (NaN).
* Network I/O is passed in as an environment `fetch : String → HttpResp`
  mapping a URL to the response the server would give.
* File-system state for the exporter is passed in as a `Disk` of two
  predicates (`isdir`, `fileExists`), mirroring the two `os.path` queries
  the source makes.
* Python exceptions become `Except` errors with one constructor per
  distinct exception the source can raise.
-/

deriving instance DecidableEq for Except

namespace Delmarva

/-- Python `str.zfill`: left-pad a digit string with zeros to width `w`. -/
def zfill (w : Nat) (s : String) : String :=
  if s.length < w then String.mk (List.replicate (w - s.length) '0') ++ s else s

/-- A calendar date, the shape of the `datetime`/`Timestamp` values the
source passes around (`dt.year`, `dt.month`, `dt.day`). -/
structure Date where
  year : Nat
  month : Nat
  day : Nat
deriving DecidableEq, Repr

/-- Chronological key of a date: valid Gregorian dates compare
chronologically exactly as these keys compare numerically. -/
def Date.key (d : Date) : Nat := d.year * 10000 + d.month * 100 + d.day

/-- Python `dt.strftime('%Y%m%d')`. -/
def Date.strftimeCompact (d : Date) : String :=
  zfill 4 (toString d.year) ++ zfill 2 (toString d.month) ++ zfill 2 (toString d.day)

/-- Exact rationals in lowest terms, standing in for the Python floats the
source manipulates.  The source only parses decimal literals and adds two
parsed values, for which exact rational arithmetic is the intended
mathematics (IEEE rounding is the one aspect this abstracts away; no claim
depends on it). -/
structure Q where
  num : Int
  den : Nat
deriving DecidableEq, Repr

/-- Normalize a fraction with positive denominator to lowest terms. -/
def Q.norm (n : Int) (d : Nat) : Q :=
  let g := Nat.gcd n.natAbs d
  ⟨n / (g : Int), d / g⟩

def Q.ofNat (n : Nat) : Q := ⟨(n : Int), 1⟩

def Q.neg (a : Q) : Q := ⟨-a.num, a.den⟩

def Q.add (a b : Q) : Q :=
  Q.norm (a.num * (b.den : Int) + b.num * (a.den : Int)) (a.den * b.den)

/-- The value `m / 10 ^ k`, the fractional part of a decimal literal. -/
def Q.decFrac (m : Nat) (k : Nat) : Q := Q.norm (m : Int) (10 ^ k)

/-- Split a character list at every separator satisfying `p`, keeping empty
pieces — the semantics of Python `str.split(sep)` for a one-character `sep`. -/
def splitIfChar (p : Char → Bool) (cs : List Char) : List (List Char) :=
  cs.foldr
    (fun c acc =>
      if p c then [] :: acc
      else
        match acc with
        | h :: t => (c :: h) :: t
        | [] => [[c]])
    [[]]

/-- Numeric value of a digit string (no emptiness/digit check; callers check). -/
def digitsVal0 (cs : List Char) : Nat :=
  cs.foldl (fun n c => n * 10 + (c.toNat - 48)) 0

/-- Parse a non-empty all-digit character list to a natural number. -/
def digitsVal (cs : List Char) : Option Nat :=
  if cs.isEmpty ∨ ¬ cs.all (·.isDigit) then none else some (digitsVal0 cs)

/-- Unsigned decimal literal (`"12"`, `"12.5"`, `"12."`, `".5"`) as a rational. -/
def parseUnsignedQ (cs : List Char) : Option Q :=
  match splitIfChar (· = '.') cs with
  | [w] => (digitsVal w).map Q.ofNat
  | [w, f] =>
      if w.isEmpty ∧ f.isEmpty then none
      else if w.all (·.isDigit) ∧ f.all (·.isDigit) then
        some (Q.add (Q.ofNat (digitsVal0 w)) (Q.decFrac (digitsVal0 f) f.length))
      else none
  | _ => none

/-- Python `float()` / pandas `astype('float')` on the plain decimal literals
this data contains (optional sign, optional fractional part). -/
def parseFloatQ (s : String) : Option Q :=
  match s.data with
  | '-' :: rest => (parseUnsignedQ rest).map Q.neg
  | '+' :: rest => parseUnsignedQ rest
  | cs => parseUnsignedQ cs

/-- pandas `to_datetime(. , format='%m/%d/%Y')` on one token. -/
def parseDateMDY (s : String) : Option Date :=
  match splitIfChar (· = '/') s.data with
  | [m, d, y] =>
      match digitsVal m, digitsVal d, digitsVal y with
      | some mv, some dv, some yv =>
          if 1 ≤ mv ∧ mv ≤ 12 ∧ 1 ≤ dv ∧ dv ≤ 31 then some ⟨yv, mv, dv⟩ else none
      | _, _, _ => none
  | _ => none

/-- Sequence a fallible function over a list, stopping at the first
error — `Except`-monad `mapM`, written structurally. -/
def mapME (f : α → Except ε β) : List α → Except ε (List β)
  | [] => .ok []
  | a :: l =>
      match f a with
      | .error e => .error e
      | .ok b =>
          match mapME f l with
          | .error e => .error e
          | .ok out => .ok (b :: out)

/-- One cell of a pandas `DataFrame` as this program uses them. -/
inductive Cell where
  | str : String → Cell
  | num : Q → Cell
  | date : Date → Cell
  | null : Cell
deriving DecidableEq, Repr

/-- A pandas `DataFrame`: named columns over a list of rows. -/
structure DataFrame where
  cols : List String
  rows : List (List Cell)
deriving DecidableEq, Repr

/-! ## The raw fetcher (`Delmarva._retrieve_raw_data`) -/

/-- An HTTP response as `requests` presents it: `status_code` and `text`. -/
structure HttpResp where
  status : Nat
  text : String
deriving DecidableEq, Repr

/-- `self.ldcs = ['CND', 'CNM']` — the supported LDC codes. -/
def ldcs : List String := ["CND", "CNM"]

/-- `self.ldc_state = {'CNM': 'MD', 'CND': 'DE', 'CNV': 'VA'}`.  The
lookup `self.ldc_state[ldc]` is only reached after the `assert ldc in
self.ldcs` guard, so the final default branch is unreachable in context. -/
def ldc_state (ldc : String) : String :=
  if ldc = "CNM" then "MD" else if ldc = "CND" then "DE"
  else if ldc = "CNV" then "VA" else ""

/-- `self.delmarva_url.format(**params)`: the templated archive URL. -/
def delmarva_url (state_lower state_upper yr mo sDt : String) (url_index : Nat) : String :=
  "http://www2.conectiv.com/cpd/tps/archives/" ++ state_lower ++ "/" ++ yr ++ "/"
    ++ mo ++ "/" ++ sDt ++ state_upper ++ "A" ++ toString url_index ++ ".txt"

/-- The URL `_retrieve_raw_data` requests for date `dt`, LDC `ldc` and
revision index `i`, built from the `params` dict of lines 59-64. -/
def requestUrl (dt : Date) (ldc : String) (i : Nat) : String :=
  delmarva_url (ldc_state ldc).toLower (ldc_state ldc).toUpper
    (toString dt.year) (zfill 2 (toString dt.month)) dt.strftimeCompact i

/-- Errors `_retrieve_raw_data` can raise: the failed `assert ldc in
self.ldcs` (`InvalidLdcError`), and `requests.HTTPError` from
`r.raise_for_status()` (`NoDataAvailableError`, carrying the status).  The
`TypeError` for a date without `month`/`year` attributes cannot arise in the
embedding because `Date` always has both fields. -/
inductive FetchErr where
  | invalidLdc : FetchErr
  | httpError : Nat → FetchErr
deriving DecidableEq, Repr

/-- `requests.Response.raise_for_status`: raises `HTTPError` exactly for
client-error and server-error status codes (400–599). -/
def raise_for_status (r : HttpResp) : Except FetchErr Unit :=
  if 400 ≤ r.status ∧ r.status < 600 then .error (.httpError r.status) else .ok ()

/-- `Delmarva._retrieve_raw_data`, lines 46-70.  `fetch` is the network
environment (URL to response).  Returns the response text on the first 200,
`none` when the `for`-loop falls through to a `raise_for_status` that does
not raise (non-200, non-error final status: the Python function then returns
`None`).  The second component records the URLs actually requested, in
order, so that "no network call was made" is expressible. -/
def retrieve_raw_data (fetch : String → HttpResp) (dt : Date) (ldc : String) :
    Except FetchErr (Option String) × List String :=
  if ldc ∈ ldcs then
    let url2 := requestUrl dt ldc 2
    let r2 := fetch url2
    if r2.status = 200 then (.ok (some r2.text), [url2])
    else
      let url1 := requestUrl dt ldc 1
      let r1 := fetch url1
      if r1.status = 200 then (.ok (some r1.text), [url2, url1])
      else
        match raise_for_status r1 with
        | .error e => (.error e, [url2, url1])
        | .ok _ => (.ok none, [url2, url1])
  else (.error .invalidLdc, [])

/-! ## The series parser (`Delmarva.get_lp_series`) -/

/-- Python `line.split()`: split on whitespace runs, dropping empty pieces. -/
def tokenize (line : List Char) : List String :=
  (splitIfChar (·.isWhitespace) line).filterMap
    (fun g => if g = [] then none else some (String.mk g))

/-- `data.replace('\r', '')`: replacing each CR by the empty string deletes
every CR. -/
def stripCR (cs : List Char) : List Char := cs.filter (· ≠ '\x0d')

/-- Lines 97-99: strip carriage returns, split on newlines, keep lines of
length above one after the first four, and tokenize each. -/
def parsedTokens (data : String) : List (List String) :=
  (splitIfChar (· = '\n') (stripCR data.data)).enum.filterMap
    (fun p => if p.2.length > 1 ∧ p.1 > 3 then some (tokenize p.2) else none)

/-- `hours = ['H' + str(h).zfill(2) for h in range(1, 25)]`. -/
def hourNames : List String :=
  (List.range 24).map (fun h => "H" ++ zfill 2 (toString (h + 1)))

/-- `hours.insert(2, 'H02X')`: the daylight-saving column list. -/
def hourNamesDst : List String :=
  hourNames.take 2 ++ ["H02X"] ++ hourNames.drop 2

/-- Errors `get_lp_series` raises past the fetch: `NoValidDataError`
(line 104, no parsed data lines), `InvalidDataStructureError` (line 120,
column count neither 26 nor 27), `NumericParseError` (an hour token
`astype('float')` cannot convert), and a date token `to_datetime` cannot
parse. -/
inductive LpErr where
  | noValidData : LpErr
  | invalidStructure : LpErr
  | numericParse : LpErr
  | dateParse : LpErr
deriving DecidableEq, Repr

/-- Position of the first occurrence of a label in a label list. -/
def idxOf? (c : String) : List String → Option Nat
  | [] => none
  | x :: l => if x = c then some 0 else (idxOf? c l).map (· + 1)

/-- Index of a named column, as pandas column lookup. -/
def DataFrame.colIdx (df : DataFrame) (c : String) : Option Nat :=
  idxOf? c df.cols

/-- `del df[c]`: drop a column by name (no-op when absent; in context the
column is always present). -/
def DataFrame.delCol (df : DataFrame) (c : String) : DataFrame :=
  match df.colIdx c with
  | some i => ⟨df.cols.eraseIdx i, df.rows.map (fun r => r.eraseIdx i)⟩
  | none => df

/-- Elementwise float addition behind `df['H02'] += df['H02X']`; on the
valid inputs it is applied to, both cells are numbers. -/
def cellAdd : Cell → Cell → Cell
  | .num a, .num b => .num (a.add b)
  | _, _ => .null

/-- `df[c1] += df[c2]` (both columns present in context). -/
def DataFrame.addColTo (df : DataFrame) (c1 c2 : String) : DataFrame :=
  match df.colIdx c1, df.colIdx c2 with
  | some i, some j =>
      ⟨df.cols, df.rows.map (fun r => r.set i (cellAdd (r.getD i .null) (r.getD j .null)))⟩
  | _, _ => df

/-- Python `str.strip()`: drop whitespace from both ends. -/
def pyStrip (cs : List Char) : List Char :=
  ((cs.dropWhile (·.isWhitespace)).reverse.dropWhile (·.isWhitespace)).reverse

/-- The per-column converters of lines 126-133: hour columns via
`astype('float')`, `date` via `to_datetime(format='%m/%d/%Y')`, `segment`
via `str.strip().str.slice(start=8)`. -/
def convertCell (col : String) (s : String) : Except LpErr Cell :=
  if col = "date" then
    match parseDateMDY s with
    | some d => .ok (.date d)
    | none => .error .dateParse
  else if col = "segment" then .ok (.str (String.mk ((pyStrip s.data).drop 8)))
  else
    match parseFloatQ s with
    | some q => .ok (.num q)
    | none => .error .numericParse

/-- Convert one raw token row under the given column names (the rows this
is applied to have exactly as many tokens as there are columns, as the
`pd.DataFrame(parsed, columns=cols)` constructor enforces). -/
def convertRow (cols : List String) (row : List String) : Except LpErr (List Cell) :=
  mapME (fun p => convertCell p.1 p.2) (cols.zip row)

/-- Lines 96-140 of `get_lp_series`: everything after the fetch.  Validates
line and column structure, builds the typed table, and aggregates the
daylight-saving duplicate hour when requested. -/
def parseLpText (data : String) (agg_dst_hr2 : Bool) : Except LpErr DataFrame :=
  let parsed := parsedTokens data
  if parsed.length = 0 then .error .noValidData
  else
    let n_cols := (parsed.headD []).length
    let dst := n_cols = 27
    if ¬ dst ∧ n_cols ≠ 26 then .error .invalidStructure
    else
      let hours := if dst then hourNamesDst else hourNames
      let cols := ["segment", "date"] ++ hours
      match mapME (convertRow cols) parsed with
      | .error e => .error e
      | .ok rows =>
          let df : DataFrame := ⟨cols, rows⟩
          if dst ∧ agg_dst_hr2 then
            .ok ((df.addColTo "H02" "H02X").delCol "H02X")
          else
            .ok df

/-- Errors escaping `get_lp_series`: the fetcher's failed LDC assertion
propagates; parse errors propagate; `HTTPError` is caught (lines 89-94) and
becomes the `none` ("no data, skip") result instead.  `attributeErr` is the
`AttributeError` Python would raise at `data.replace` when
`_retrieve_raw_data` returned `None` (its non-200 non-error fallthrough). -/
inductive SeriesErr where
  | invalidLdc : SeriesErr
  | attributeErr : SeriesErr
  | lp : LpErr → SeriesErr
deriving DecidableEq, Repr

/-- `Delmarva.get_lp_series`, lines 72-140: fetch, catch `HTTPError` as a
skip (`.ok none`), otherwise parse. -/
def get_lp_series (fetch : String → HttpResp) (target_dt : Date) (ldc : String)
    (agg_dst_hr2 : Bool) : Except SeriesErr (Option DataFrame) :=
  match (retrieve_raw_data fetch target_dt ldc).1 with
  | .error .invalidLdc => .error .invalidLdc
  | .error (.httpError _) => .ok none
  | .ok none => .error .attributeErr
  | .ok (some data) =>
      match parseLpText data agg_dst_hr2 with
      | .error e => .error (.lp e)
      | .ok df => .ok (some df)

/-! ## The range aggregator (`Delmarva.get_lp_data`) -/

/-- Gregorian leap year. -/
def isLeap (y : Nat) : Bool := y % 4 = 0 ∧ (y % 100 ≠ 0 ∨ y % 400 = 0)

/-- Days in a Gregorian month. -/
def daysInMonth (y m : Nat) : Nat :=
  if m = 2 then (if isLeap y then 29 else 28)
  else if m = 4 ∨ m = 6 ∨ m = 9 ∨ m = 11 then 30
  else 31

/-- The calendar day after `d`. -/
def Date.next (d : Date) : Date :=
  if d.day < daysInMonth d.year d.month then ⟨d.year, d.month, d.day + 1⟩
  else if d.month < 12 then ⟨d.year, d.month + 1, 1⟩
  else ⟨d.year + 1, 1, 1⟩

/-- Fuelled day enumeration; `Date.key` grows by at least one per day, so
`b.key + 1 - a.key` fuel always suffices. -/
def dateRangeAux : Nat → Date → Date → List Date
  | 0, _, _ => []
  | fuel + 1, a, b => if a.key ≤ b.key then a :: dateRangeAux fuel a.next b else []

/-- `pd.date_range(from_date, to_date, freq='D')`: every calendar day of
the inclusive range (empty when `from` is after `to`). -/
def dateRange (a b : Date) : List Date :=
  dateRangeAux (b.key + 1 - a.key) a b

/-- How `pd.concat` can fail: an empty object list raises
"No objects to concatenate"; a list whose every entry is `None` raises
"All objects passed were None". -/
inductive ConcatErr where
  | noObjects : ConcatErr
  | allNone : ConcatErr
deriving DecidableEq, Repr

/-- Reindex a frame's rows to a (super)set of columns, null-filling columns
the frame does not have — how `pd.concat` aligns frames with differing
column sets (a daylight-saving frame with `H02X` next to ordinary frames). -/
def DataFrame.reindexCols (df : DataFrame) (cols : List String) : DataFrame :=
  ⟨cols, df.rows.map (fun r =>
    cols.map (fun c =>
      match df.colIdx c with
      | some i => r.getD i .null
      | none => .null))⟩

/-- `pd.concat(objs, ignore_index=True)` where `objs` may contain `None`
entries: `None`s are dropped; an all-`None` or empty list raises; otherwise
rows are stacked in order over the union of the columns in order of first
appearance. -/
def pdConcat (objs : List (Option DataFrame)) : Except ConcatErr DataFrame :=
  if objs.isEmpty then .error .noObjects
  else
    let dfs := objs.filterMap id
    if dfs.isEmpty then .error .allNone
    else
      let cols := dfs.foldl (fun acc df => acc ++ df.cols.filter (fun c => c ∉ acc)) []
      .ok ⟨cols, (dfs.map (fun df => (df.reindexCols cols).rows)).flatten⟩

/-- Errors escaping `get_lp_data`. -/
inductive DataErr where
  | series : SeriesErr → DataErr
  | concat : ConcatErr → DataErr
deriving DecidableEq, Repr

/-- `Delmarva.get_lp_data`, lines 142-153: one `get_lp_series` call per
day × LDC (date-major, `agg_dst_hr2` left at its default `True`), then one
`pd.concat` over the results. -/
def get_lp_data (fetch : String → HttpResp) (from_dt to_dt : Date) :
    Except DataErr DataFrame :=
  let rng := dateRange from_dt to_dt
  match mapME
      (fun p =>
        match get_lp_series fetch p.1 p.2 true with
        | .error e => .error (DataErr.series e)
        | .ok r => .ok r)
      (rng.flatMap (fun dt => ldcs.map (fun ldc => (dt, ldc)))) with
  | .error e => .error e
  | .ok objs =>
      match pdConcat objs with
      | .error e => .error (.concat e)
      | .ok df => .ok df

/-! ## The exporter (`Delmarva.export_for_oracle`) -/

/-- The two `os.path` queries the exporter makes, as an abstract disk
state. -/
structure Disk where
  isdir : String → Bool
  fileExists : String → Bool

/-- A `DataFrame` with an index column split out, the shape `set_index`
and `join` work on: each row is its index cell paired with its data
cells. -/
structure IndexedFrame where
  indexName : String
  cols : List String
  rows : List (Cell × List Cell)
deriving DecidableEq, Repr

/-- `df.set_index(c)`: move column `c` into the index.  (pandas raises
`KeyError` when `c` is absent; the exporter checks that case separately, so
the `none` branch here is never reached in context.) -/
def DataFrame.set_index (df : DataFrame) (c : String) : IndexedFrame :=
  match df.colIdx c with
  | some i => ⟨c, df.cols.eraseIdx i, df.rows.map (fun r => (r.getD i .null, r.eraseIdx i))⟩
  | none => ⟨c, df.cols, df.rows.map (fun r => (.null, r))⟩

/-- `lp.join(codes.C_LOAD_PROFILE, how='right')`: join the indexed frame
against a series of `(index value, series value)` entries, keeping every
series entry.  For each entry in series order: all frame rows whose index
equals the entry's key (in frame order), each extended with the series
value as a new last column — or, when no frame row matches, a single row of
nulls carrying only the series value.  Frame rows whose index matches no
entry are dropped. -/
def IndexedFrame.joinRight (lf : IndexedFrame) (series : List (String × String))
    (seriesName : String) : IndexedFrame :=
  ⟨lf.indexName, lf.cols ++ [seriesName],
    series.flatMap (fun e =>
      let hits := lf.rows.filter (fun r => r.1 = Cell.str e.1)
      if hits.isEmpty then
        [(Cell.str e.1, List.replicate lf.cols.length Cell.null ++ [Cell.str e.2])]
      else
        hits.map (fun r => (Cell.str e.1, r.2 ++ [Cell.str e.2])))⟩

/-- `.reset_index(drop=True)`: discard the index. -/
def IndexedFrame.resetIndexDrop (f : IndexedFrame) : DataFrame :=
  ⟨f.cols, f.rows.map (fun r => r.2)⟩

/-- `.assign(EMPTY=np.nan)`: append an all-null column. -/
def IndexedFrame.assignNull (f : IndexedFrame) (c : String) : IndexedFrame :=
  ⟨f.indexName, f.cols ++ [c], f.rows.map (fun r => (r.1, r.2 ++ [.null]))⟩

/-- Insert `a` in front of the first element it is `le`-below-or-equal. -/
def insertLe (le : α → α → Bool) (a : α) : List α → List α
  | [] => [a]
  | b :: l => if le a b then a :: b :: l else b :: insertLe le a l

/-- Insertion sort — the embedding's model of the pandas sorts.  pandas'
default `kind='quicksort'` guarantees only the comparator order of the
result, not stability, so the theorems below use `sortLe` only through
properties every sort kind shares — the rows it contains (membership) and
the comparator order it establishes — never through how this particular
implementation orders tied rows. -/
def sortLe (le : α → α → Bool) : List α → List α
  | [] => []
  | a :: l => insertLe le a (sortLe le l)

/-- Ordering of the cells a `date` column holds: dates chronologically,
nulls (and any non-date cell, on which pandas itself would fail to compare)
as `NaN`, placed last as pandas' `na_position='last'` does. -/
def dateKeyCell : Cell → Option Nat
  | .date d => some d.key
  | _ => none

def dateLeCell (a b : Cell) : Bool :=
  match dateKeyCell a, dateKeyCell b with
  | _, none => true
  | none, some _ => false
  | some x, some y => x ≤ y

/-- Ordering of index cells: the index the exporter sorts on holds the
mapped code strings, compared lexicographically.  (Non-string cells never
occur there: `joinRight` makes every index cell a string.) -/
def strKeyCell : Cell → String
  | .str s => s
  | _ => ""

/-- Lexicographic code-point comparison — Python/pandas string order. -/
def charListLe : List Char → List Char → Bool
  | [], _ => true
  | _ :: _, [] => false
  | a :: as, b :: bs =>
      if a.toNat < b.toNat then true
      else if b.toNat < a.toNat then false
      else charListLe as bs

def idxLeCell (a b : Cell) : Bool :=
  charListLe (strKeyCell a).data (strKeyCell b).data

/-- `.sort_values('date')` (column fixed to `date`, the one use). -/
def IndexedFrame.sortValuesDate (f : IndexedFrame) : IndexedFrame :=
  match idxOf? "date" f.cols with
  | some i =>
      ⟨f.indexName, f.cols,
        sortLe (fun r1 r2 => dateLeCell (r1.2.getD i .null) (r2.2.getD i .null)) f.rows⟩
  | none => f

/-- `.sort_index()`. -/
def IndexedFrame.sortIndex (f : IndexedFrame) : IndexedFrame :=
  ⟨f.indexName, f.cols, sortLe (fun r1 r2 => idxLeCell r1.1 r2.1) f.rows⟩

/-- `.to_csv(..., header=False)`: one output line per row, the index cell
first, then the data cells in column order. -/
def IndexedFrame.toCsvRows (f : IndexedFrame) : List (List Cell) :=
  f.rows.map (fun r => r.1 :: r.2)

/-- The reshaping chain of lines 181-190, from the input table to the rows
written to the output file. -/
def exportRows (codes : List (String × String)) (lp_data : DataFrame) : List (List Cell) :=
  (((((lp_data.set_index "segment").joinRight codes "C_LOAD_PROFILE").resetIndexDrop.set_index
        "C_LOAD_PROFILE").assignNull "EMPTY").sortValuesDate.sortIndex).toCsvRows

/-- Minimum of the `date` column, skipping nulls as pandas `min` does. -/
def dateMin (df : DataFrame) : Option Date :=
  match df.colIdx "date" with
  | none => none
  | some i =>
      (df.rows.filterMap (fun r =>
        match r.getD i .null with
        | .date d => some d
        | _ => none)).foldl
        (fun acc d =>
          match acc with
          | none => some d
          | some m => some (if d.key < m.key then d else m))
        none

/-- Exceptions of `export_for_oracle`: `AttributeError` from
`lp_data.date` when the table has no `date` column (line 170);
`ValueError` from formatting a non-date minimum into the default file name
(line 173); `FileExistsError` — the spec's `FileAlreadyArchivedError` —
from the archive guard (line 177); `KeyError` from
`set_index('segment')` when the table has no `segment` column (line 182). -/
inductive ExpErr where
  | attributeError : ExpErr
  | formatError : ExpErr
  | fileAlreadyArchived : ExpErr
  | keyError : ExpErr
deriving DecidableEq, Repr

/-- `Delmarva.export_for_oracle`, lines 155-190.  `path` stands for the
already-defaulted `path or self.dest_path`.  On success, returns the file
path written (the literal concatenation `path + file_name`, no separator
inserted) and the rows written to it. -/
def export_for_oracle (disk : Disk) (codes : List (String × String)) (lp_data : DataFrame)
    (path : String) (file_name? : Option String) :
    Except ExpErr (String × List (List Cell)) :=
  if lp_data.colIdx "date" = none then .error .attributeError
  else
    match (match file_name? with
           | some f => some f
           | none => (dateMin lp_data).map
               (fun d => "Conectiv_" ++ d.strftimeCompact ++ ".txt") : Option String) with
    | none => .error .formatError
    | some file_name =>
        if disk.isdir (path ++ "Archive") ∧ disk.fileExists (path ++ "Archive\\" ++ file_name)
        then .error .fileAlreadyArchived
        else if lp_data.colIdx "segment" = none then .error .keyError
        else .ok (path ++ file_name, exportRows codes lp_data)

/-- A pandas object on the Python heap. -/
inductive PdObj where
  | df : DataFrame → PdObj
  | idf : IndexedFrame → PdObj
deriving DecidableEq, Repr

/-- `export_for_oracle` with Python object identity made explicit: the heap
is a list of pandas objects, references are positions, and every step of
the method chain — `set_index`, `join`, `reset_index`, `set_index`,
`assign`, `sort_values`, `sort_index`, all called without `inplace` —
returns a freshly allocated object, as pandas' non-inplace defaults do.
`r` is the caller's reference to `lp_data`. -/
def export_for_oracle_heap (disk : Disk) (codes : List (String × String))
    (h : List PdObj) (r : Nat) (path : String) (file_name? : Option String) :
    List PdObj × Except ExpErr (String × List (List Cell)) :=
  match h.get? r with
  | some (.df lp) =>
      if lp.colIdx "date" = none then (h, .error .attributeError)
      else
        match (match file_name? with
               | some f => some f
               | none => (dateMin lp).map
                   (fun d => "Conectiv_" ++ d.strftimeCompact ++ ".txt") : Option String) with
        | none => (h, .error .formatError)
        | some file_name =>
            if disk.isdir (path ++ "Archive")
                ∧ disk.fileExists (path ++ "Archive\\" ++ file_name)
            then (h, .error .fileAlreadyArchived)
            else if lp.colIdx "segment" = none then (h, .error .keyError)
            else
              let o1 := lp.set_index "segment"
              let o2 := o1.joinRight codes "C_LOAD_PROFILE"
              let o3 := o2.resetIndexDrop
              let o4 := o3.set_index "C_LOAD_PROFILE"
              let o5 := o4.assignNull "EMPTY"
              let o6 := o5.sortValuesDate
              let o7 := o6.sortIndex
              (h ++ [PdObj.idf o1, PdObj.idf o2, PdObj.df o3, PdObj.idf o4,
                      PdObj.idf o5, PdObj.idf o6, PdObj.idf o7],
               .ok (path ++ file_name, o7.toCsvRows))
  | _ => (h, .error .keyError)

/-! ## Helper lemmas -/

theorem mapME_ok_length {f : α → Except ε β} {l : List α} {out : List β}
    (h : mapME f l = .ok out) : out.length = l.length := by
  induction l generalizing out with
  | nil =>
      simp only [mapME] at h
      cases h
      rfl
  | cons a t ih =>
      simp only [mapME] at h
      cases hfa : f a with
      | error e => rw [hfa] at h; exact Except.noConfusion h
      | ok b =>
          rw [hfa] at h
          cases hrest : mapME f t with
          | error e => rw [hrest] at h; exact Except.noConfusion h
          | ok out' =>
              rw [hrest] at h
              cases h
              simp only [List.length_cons]
              rw [ih hrest]

theorem mapME_ok_get {f : α → Except ε β} {l : List α} {out : List β}
    (h : mapME f l = .ok out) :
    ∀ k a, l.get? k = some a → ∃ b, f a = .ok b ∧ out.get? k = some b := by
  induction l generalizing out with
  | nil => intro k a hk; simp at hk
  | cons x t ih =>
      simp only [mapME] at h
      cases hfx : f x with
      | error e => rw [hfx] at h; exact Except.noConfusion h
      | ok b =>
          rw [hfx] at h
          cases hrest : mapME f t with
          | error e => rw [hrest] at h; exact Except.noConfusion h
          | ok out' =>
              rw [hrest] at h
              cases h
              intro k a hk
              cases k with
              | zero =>
                  injection hk with hxa
                  subst hxa
                  exact ⟨b, hfx, rfl⟩
              | succ k => exact ih hrest k a hk

theorem mapME_const_ok {f : α → Except ε β} {l : List α} {b : β}
    (h : ∀ a ∈ l, f a = .ok b) : mapME f l = .ok (l.map (fun _ => b)) := by
  induction l with
  | nil => rfl
  | cons x t ih =>
      simp only [mapME, h x (List.mem_cons_self x t)]
      rw [ih (fun a ha => h a (List.mem_cons_of_mem x ha))]
      rfl

theorem zip_get?_some : ∀ {l1 : List α} {l2 : List β} (k : Nat) {a : α} {b : β},
    l1.get? k = some a → l2.get? k = some b → (l1.zip l2).get? k = some (a, b)
  | [], _, k, _, _, h1, _ => by simp at h1
  | _ :: _, [], k, _, _, _, h2 => by simp at h2
  | x :: t1, y :: t2, 0, a, b, h1, h2 => by
      injection h1 with h1; injection h2 with h2
      simp [List.zip_cons_cons, h1, h2]
  | x :: t1, y :: t2, k + 1, a, b, h1, h2 =>
      zip_get?_some k h1 h2

theorem get?_eraseIdx_of_lt : ∀ (l : List α) (i j : Nat), i < j →
    (l.eraseIdx j).get? i = l.get? i
  | [], _, _, _ => by simp [List.eraseIdx]
  | _ :: _, 0, _ + 1, _ => rfl
  | _ :: l, i + 1, j + 1, h =>
      get?_eraseIdx_of_lt l i j (Nat.lt_of_succ_lt_succ h)

theorem get?_set_self : ∀ (l : List α) (i : Nat) (x : α), i < l.length →
    (l.set i x).get? i = some x
  | [], i, _, h => absurd h (by simp)
  | _ :: _, 0, _, _ => rfl
  | _ :: l, i + 1, x, h => get?_set_self l i x (Nat.lt_of_succ_lt_succ h)

theorem get?_append_length : ∀ (l : List α) (x : α) (l2 : List α),
    (l ++ x :: l2).get? l.length = some x
  | [], _, _ => rfl
  | _ :: l, x, l2 => get?_append_length l x l2

theorem eraseIdx_append_length : ∀ (l : List α) (x : α),
    (l ++ [x]).eraseIdx l.length = l
  | [], _ => rfl
  | a :: l, x => congrArg (a :: ·) (eraseIdx_append_length l x)

theorem idxOf?_append_self (l : List String) (c : String) (h : c ∉ l) :
    idxOf? c (l ++ [c]) = some l.length := by
  induction l with
  | nil => simp [idxOf?]
  | cons x t ih =>
      have hxc : ¬ x = c := fun hx => h (hx ▸ List.mem_cons_self x t)
      simp only [List.cons_append, idxOf?, hxc, if_false]
      have := ih (fun hc => h (List.mem_cons_of_mem x hc))
      simp only [List.append_eq]
      rw [this]
      rfl

/-! ## C7 — invalid LDC fails before any network request -/

/-- **C7**: for every date and every LDC argument outside the supported
set `['CND', 'CNM']` (in particular `CNV`, which has a state mapping but is
not in `self.ldcs`), `_retrieve_raw_data` fails on the `assert ldc in
self.ldcs` — the spec's `InvalidLdcError` — and the list of URLs requested
is empty: no HTTP GET is performed. -/
theorem retrieve_raw_data_invalid_ldc (fetch : String → HttpResp) (dt : Date)
    (ldc : String) (h : ldc ∉ ldcs) :
    retrieve_raw_data fetch dt ldc = (.error .invalidLdc, []) := by
  simp [retrieve_raw_data, h]

theorem retrieve_raw_data_invalid_ldc_witness :
    retrieve_raw_data (fun _ => ⟨200, "data"⟩) ⟨2017, 1, 1⟩ "CNV" =
      (.error .invalidLdc, []) :=
  retrieve_raw_data_invalid_ldc _ _ _ (by decide)

/-! ## C5 — the two-revision fetch fallback -/

/-- **C5** (amended): with a supported LDC, `_retrieve_raw_data` returns
the revision-2 body on a 200, else the revision-1 body on a 200; when both
are non-200 it raises `HTTPError` (the spec's `NoDataAvailableError`)
carrying the final status **only if that status is an error status
(400–599)**; a non-200, non-error final status makes `raise_for_status` a
no-op and the function returns `None` rather than failing. -/
theorem retrieve_raw_data_cases (fetch : String → HttpResp) (dt : Date) (ldc : String)
    (h : ldc ∈ ldcs) :
    ((fetch (requestUrl dt ldc 2)).status = 200 →
        (retrieve_raw_data fetch dt ldc).1 = .ok (some (fetch (requestUrl dt ldc 2)).text)) ∧
    ((fetch (requestUrl dt ldc 2)).status ≠ 200 →
        (fetch (requestUrl dt ldc 1)).status = 200 →
        (retrieve_raw_data fetch dt ldc).1 = .ok (some (fetch (requestUrl dt ldc 1)).text)) ∧
    ((fetch (requestUrl dt ldc 2)).status ≠ 200 →
        (fetch (requestUrl dt ldc 1)).status ≠ 200 →
        400 ≤ (fetch (requestUrl dt ldc 1)).status →
        (fetch (requestUrl dt ldc 1)).status < 600 →
        (retrieve_raw_data fetch dt ldc).1 =
          .error (.httpError (fetch (requestUrl dt ldc 1)).status)) ∧
    ((fetch (requestUrl dt ldc 2)).status ≠ 200 →
        (fetch (requestUrl dt ldc 1)).status ≠ 200 →
        ¬ (400 ≤ (fetch (requestUrl dt ldc 1)).status ∧
            (fetch (requestUrl dt ldc 1)).status < 600) →
        (retrieve_raw_data fetch dt ldc).1 = .ok none) := by
  refine ⟨?_, ?_, ?_, ?_⟩
  · intro h200
    simp [retrieve_raw_data, h, h200]
  · intro hn2 h200
    simp [retrieve_raw_data, h, hn2, h200]
  · intro hn2 hn1 hlo hhi
    simp [retrieve_raw_data, raise_for_status, h, hn2, hn1, hlo, hhi]
  · intro hn2 hn1 hrange
    simp [retrieve_raw_data, raise_for_status, h, hn2, hn1, hrange]

theorem retrieve_raw_data_cases_witness :
    (retrieve_raw_data (fun _ => ⟨404, ""⟩) ⟨2017, 1, 1⟩ "CNM").1 =
      .error (.httpError 404) :=
  ((retrieve_raw_data_cases (fun _ => ⟨404, ""⟩) ⟨2017, 1, 1⟩ "CNM"
      (by decide)).2.2.1) (by decide) (by decide) (by decide) (by decide)

/-- **C5** counterexample: a server answering 204 (No Content) to both
revision requests.  Neither request returns a success (200) status, yet
`_retrieve_raw_data` does not fail with an `HTTPError`: `raise_for_status`
on a 204 is a no-op, and the function returns `None`. -/
theorem retrieve_raw_data_204_counterexample :
    ((fun _ => (⟨204, ""⟩ : HttpResp)) (requestUrl ⟨2017, 1, 1⟩ "CNM" 2)).status ≠ 200 ∧
    ((fun _ => (⟨204, ""⟩ : HttpResp)) (requestUrl ⟨2017, 1, 1⟩ "CNM" 1)).status ≠ 200 ∧
    (retrieve_raw_data (fun _ => ⟨204, ""⟩) ⟨2017, 1, 1⟩ "CNM").1 = .ok none :=
  ⟨by decide, by decide, by decide⟩

/-! ## C6 — too little data -/

/-- **C6** (amended): the parser's "no valid data" condition is not "fewer
than five non-empty lines" but "no line after the first four has more than
one character" (the filter on line 98 keeps a line only when `i > 3` and
`len(line) > 1`).  Whenever that leaves zero parsed data lines,
`get_lp_series` fails with `ValueError` — the spec's `NoValidDataError`. -/
theorem get_lp_series_no_valid_data (fetch : String → HttpResp) (dt : Date)
    (ldc : String) (agg : Bool)
    (hldc : ldc ∈ ldcs)
    (h200 : (fetch (requestUrl dt ldc 2)).status = 200)
    (hempty : parsedTokens (fetch (requestUrl dt ldc 2)).text = []) :
    get_lp_series fetch dt ldc agg = .error (.lp .noValidData) := by
  simp [get_lp_series, retrieve_raw_data, hldc, h200, parseLpText, hempty]

theorem get_lp_series_no_valid_data_witness :
    get_lp_series (fun _ => ⟨200, "too short"⟩) ⟨2017, 1, 1⟩ "CNM" true =
      .error (.lp .noValidData) :=
  get_lp_series_no_valid_data (fun _ => ⟨200, "too short"⟩) ⟨2017, 1, 1⟩ "CNM" true
    (by decide) (by decide) (by decide)

/-- Raw text whose first four lines are empty, followed by one valid
26-column data line: one non-empty line in total. -/
def c6data : String :=
  "\n\n\n\nABCDPFX1SEG1 01/01/2017 1 2 3 4 5 6 7 8 9 10 11 12 13 14 15 16 17 18 19 20 21 22 23 24"

/-- **C6** counterexample: `c6data` has exactly one non-empty line — fewer
than five — yet `get_lp_series` does not fail with `NoValidDataError`: the
single data line sits at index 4, past the four-line header skip, so
parsing succeeds (with only a partial-data warning printed). -/
theorem get_lp_series_few_lines_counterexample :
    ((splitIfChar (fun c => c = '\n') (stripCR c6data.data)).filter
        (fun l => !l.isEmpty)).length = 1 ∧
    (1 : Nat) < 5 ∧
    (get_lp_series (fun _ => ⟨200, c6data⟩) ⟨2017, 1, 1⟩ "CNM" true).isOk = true :=
  ⟨by decide, by decide, by decide⟩

/-! ## C1 — daylight-saving Hour-2 handling -/

theorem getD_of_get? {l : List α} {n : Nat} {a : α} (h : l.get? n = some a) (d : α) :
    l.getD n d = a := by
  simp [List.getD_eq_getElem?_getD, ← List.get?_eq_getElem?, h]

theorem convertCell_hour_ok {c t : String} {cell : Cell}
    (hcd : c ≠ "date") (hcs : c ≠ "segment")
    (h : convertCell c t = .ok cell) : ∃ q, parseFloatQ t = some q ∧ cell = .num q := by
  simp only [convertCell, if_neg hcd, if_neg hcs] at h
  cases hq : parseFloatQ t with
  | none => rw [hq] at h; exact Except.noConfusion h
  | some q =>
      rw [hq] at h
      injection h with h
      exact ⟨q, rfl, h.symm⟩




/-- **C1**: on a valid daylight-saving (27-column) raw input — every
parsed line has 27 tokens and both parses succeed — the aggregated table
(`agg_dst_hr2=True`) has exactly the standard columns (no `H02X`, `H02` at
position 3), and each row's `H02` cell is the **sum** of the parsed values
of that row's two raw Hour-2 tokens (positions 3 and 4); the unaggregated
table (`agg_dst_hr2=False`) keeps both `H02` and `H02X` columns, carrying
the two raw Hour-2 values unchanged. -/
theorem get_lp_series_dst_hour2 (data : String) (dfT dfF : DataFrame)
    (h27 : ∀ r ∈ parsedTokens data, r.length = 27)
    (hT : parseLpText data true = .ok dfT)
    (hF : parseLpText data false = .ok dfF) :
    dfT.cols = ["segment", "date"] ++ hourNames ∧
    "H02X" ∉ dfT.cols ∧
    dfT.colIdx "H02" = some 3 ∧
    dfF.cols = ["segment", "date"] ++ hourNamesDst ∧
    dfF.colIdx "H02" = some 3 ∧ dfF.colIdx "H02X" = some 4 ∧
    ∀ k r, (parsedTokens data).get? k = some r →
      ∃ t2 t2x q2 q2x,
        r.get? 3 = some t2 ∧ r.get? 4 = some t2x ∧
        parseFloatQ t2 = some q2 ∧ parseFloatQ t2x = some q2x ∧
        (∃ rowT, dfT.rows.get? k = some rowT ∧ rowT.get? 3 = some (.num (q2.add q2x))) ∧
        (∃ rowF, dfF.rows.get? k = some rowF ∧
          rowF.get? 3 = some (.num q2) ∧ rowF.get? 4 = some (.num q2x)) := by
  cases hp : parsedTokens data with
  | nil =>
      rw [parseLpText, hp] at hT
      simp at hT
  | cons r0 rest =>
      have h0 : r0.length = 27 := h27 r0 (hp ▸ List.mem_cons_self r0 rest)
      rw [parseLpText, hp] at hT hF
      simp only [List.length_cons, List.headD_cons, h0] at hT hF
      norm_num at hT hF
      cases hm : mapME (convertRow ("segment" :: "date" :: hourNamesDst)) (r0 :: rest) with
      | error e => rw [hm] at hT; exact Except.noConfusion hT
      | ok rows =>
          rw [hm] at hT hF
          injection hT with hT
          injection hF with hF
          subst hT
          subst hF
          have hIdx2 : idxOf? "H02" ("segment" :: "date" :: hourNamesDst) = some 3 := by
            decide
          have hIdx2x : idxOf? "H02X" ("segment" :: "date" :: hourNamesDst) = some 4 := by
            decide
          have hadd : ({ cols := "segment" :: "date" :: hourNamesDst, rows := rows } :
                DataFrame).addColTo "H02" "H02X"
              = ⟨"segment" :: "date" :: hourNamesDst,
                 rows.map (fun r => r.set 3 (cellAdd (r.getD 3 .null) (r.getD 4 .null)))⟩ := by
            simp only [DataFrame.addColTo, DataFrame.colIdx]
            rw [hIdx2, hIdx2x]
          have hdel : (⟨"segment" :: "date" :: hourNamesDst,
                 rows.map (fun r => r.set 3 (cellAdd (r.getD 3 .null) (r.getD 4 .null)))⟩ :
                   DataFrame).delCol "H02X"
              = ⟨("segment" :: "date" :: hourNamesDst).eraseIdx 4,
                 (rows.map (fun r => r.set 3 (cellAdd (r.getD 3 .null) (r.getD 4 .null)))).map
                   (fun r => r.eraseIdx 4)⟩ := by
            simp only [DataFrame.delCol, DataFrame.colIdx]
            rw [hIdx2x]
          rw [hadd, hdel]
          refine ⟨?_, ?_, ?_, rfl, ?_, ?_, ?_⟩
          · show ("segment" :: "date" :: hourNamesDst).eraseIdx 4 = ["segment", "date"] ++ hourNames
            decide
          · show "H02X" ∉ ("segment" :: "date" :: hourNamesDst).eraseIdx 4
            decide
          · show idxOf? "H02" (("segment" :: "date" :: hourNamesDst).eraseIdx 4) = some 3
            decide
          · show idxOf? "H02" ("segment" :: "date" :: hourNamesDst) = some 3
            decide
          · show idxOf? "H02X" ("segment" :: "date" :: hourNamesDst) = some 4
            decide
          intro k r hk
          have hrlen : r.length = 27 := h27 r (hp ▸ List.get?_mem hk)
          obtain ⟨out, hconv, hout⟩ := mapME_ok_get hm k r hk
          rw [convertRow] at hconv
          have houtlen : out.length = 27 := by
            rw [mapME_ok_length hconv]
            rw [List.length_zip]
            have : ("segment" :: "date" :: hourNamesDst).length = 27 := by decide
            omega
          obtain ⟨t2, ht2⟩ : ∃ t, r.get? 3 = some t :=
            ⟨r.get ⟨3, by omega⟩, List.get?_eq_get (by omega)⟩
          obtain ⟨t2x, ht2x⟩ : ∃ t, r.get? 4 = some t :=
            ⟨r.get ⟨4, by omega⟩, List.get?_eq_get (by omega)⟩
          have hcol3 : ("segment" :: "date" :: hourNamesDst).get? 3 = some "H02" := by decide
          have hcol4 : ("segment" :: "date" :: hourNamesDst).get? 4 = some "H02X" := by decide
          obtain ⟨cell2, hcell2, houtg3⟩ := mapME_ok_get hconv 3 _ (zip_get?_some 3 hcol3 ht2)
          obtain ⟨cell2x, hcell2x, houtg4⟩ := mapME_ok_get hconv 4 _ (zip_get?_some 4 hcol4 ht2x)
          obtain ⟨q2, hq2, hc2⟩ :=
            convertCell_hour_ok (c := "H02") (by decide) (by decide) hcell2
          obtain ⟨q2x, hq2x, hc2x⟩ :=
            convertCell_hour_ok (c := "H02X") (by decide) (by decide) hcell2x
          subst hc2
          subst hc2x
          refine ⟨t2, t2x, q2, q2x, ht2, ht2x, hq2, hq2x, ?_, ?_⟩
          · refine ⟨(out.set 3 (cellAdd (out.getD 3 .null) (out.getD 4 .null))).eraseIdx 4, ?_, ?_⟩
            · show ((rows.map _).map _).get? k = _
              rw [List.get?_map, List.get?_map, hout]
              rfl
            · rw [get?_eraseIdx_of_lt _ 3 4 (by omega)]
              rw [get?_set_self _ 3 _ (by omega)]
              rw [getD_of_get? houtg3, getD_of_get? houtg4]
              rfl
          · exact ⟨out, hout, houtg3, houtg4⟩


/-- A daylight-saving raw file: four header lines, one 27-token data line
(`H02` token `2`, `H02X` token `2.5`, so the aggregated `H02` is `9/2`). -/
def c1data : String :=
  "h\nh\nh\nh\nABCDPFX1SEG1 01/01/2017 1 2 2.5 3 4 5 6 7 8 9 10 11 12 13 14 15 16 17 18 19 20 21 22 23 24"

/-- `parseLpText c1data true`, written out. -/
def c1dfT : DataFrame :=
  ⟨["segment", "date"] ++ hourNames,
   [[Cell.str "SEG1", Cell.date ⟨2017, 1, 1⟩] ++
      ([(⟨1, 1⟩ : Q), ⟨9, 2⟩] ++
        (List.range 22).map (fun i => (⟨(i + 3 : Nat), 1⟩ : Q))).map Cell.num]⟩

/-- `parseLpText c1data false`, written out. -/
def c1dfF : DataFrame :=
  ⟨["segment", "date"] ++ hourNamesDst,
   [[Cell.str "SEG1", Cell.date ⟨2017, 1, 1⟩] ++
      ([(⟨1, 1⟩ : Q), ⟨2, 1⟩, ⟨5, 2⟩] ++
        (List.range 22).map (fun i => (⟨(i + 3 : Nat), 1⟩ : Q))).map Cell.num]⟩

theorem get_lp_series_dst_hour2_witness : "H02X" ∉ c1dfT.cols :=
  (get_lp_series_dst_hour2 c1data c1dfT c1dfF (by decide) (by decide) (by decide)).2.1

/-! ## C4 — a range with no data anywhere -/

/-- **C4** (amended): when every (date, LDC) combination in the range
yields the "no data" skip (`get_lp_series` returns `None`), `get_lp_data`
does **not** return an empty table: every entry handed to `pd.concat` is
`None`, and `pd.concat` raises `ValueError` — "All objects passed were
None" for a non-empty range, "No objects to concatenate" for an empty
one. -/
theorem get_lp_data_all_skips (fetch : String → HttpResp) (a b : Date)
    (h : ∀ dt ∈ dateRange a b, ∀ ldc ∈ ldcs, get_lp_series fetch dt ldc true = .ok none) :
    get_lp_data fetch a b =
      .error (.concat (if dateRange a b = [] then ConcatErr.noObjects
        else ConcatErr.allNone)) := by
  have hall : ∀ p ∈ (dateRange a b).flatMap (fun dt => ldcs.map (fun ldc => (dt, ldc))),
      (match get_lp_series fetch p.1 p.2 true with
       | .error e => Except.error (DataErr.series e)
       | .ok r => Except.ok r) = .ok (none : Option DataFrame) := by
    intro p hp
    rw [List.mem_flatMap] at hp
    obtain ⟨dt, hdt, hpl⟩ := hp
    rw [List.mem_map] at hpl
    obtain ⟨ldc, hldc, hpe⟩ := hpl
    rw [← hpe, h dt hdt ldc hldc]
  rw [get_lp_data, mapME_const_ok hall]
  cases hr : dateRange a b with
  | nil => simp [pdConcat]
  | cons d t => simp [pdConcat, ldcs, List.filterMap_map]

theorem get_lp_data_all_skips_witness :
    get_lp_data (fun _ => ⟨404, ""⟩) ⟨2017, 1, 1⟩ ⟨2017, 1, 1⟩ =
      .error (.concat (if dateRange ⟨2017, 1, 1⟩ ⟨2017, 1, 1⟩ = [] then ConcatErr.noObjects
        else ConcatErr.allNone)) :=
  get_lp_data_all_skips _ _ _ (by decide)

/-- **C4** counterexample: over Jan 1–2 2017 with a server returning 404
for every URL, every (date, LDC) combination yields the "no data" skip, yet
`get_lp_data` raises `pd.concat`'s "All objects passed were None"
`ValueError` instead of returning an empty table. -/
theorem get_lp_data_all_skips_counterexample :
    ((dateRange ⟨2017, 1, 1⟩ ⟨2017, 1, 2⟩).flatMap
        (fun dt => ldcs.map (fun ldc => (dt, ldc)))).all
      (fun p => decide (get_lp_series (fun _ => ⟨404, ""⟩) p.1 p.2 true = .ok none)) = true ∧
    get_lp_data (fun _ => ⟨404, ""⟩) ⟨2017, 1, 1⟩ ⟨2017, 1, 2⟩ =
      .error (.concat .allNone) ∧
    (get_lp_data (fun _ => ⟨404, ""⟩) ⟨2017, 1, 1⟩ ⟨2017, 1, 2⟩).isOk = false :=
  ⟨by decide, by decide, by decide⟩

/-! ## C8, C9 — the archive-conflict guard -/

/-- **C8**: exporting a load-profile table (one with a `date` column, as
every combined table has — without one the Python would already fail at
`lp_data.date.min()` with `AttributeError`, before this guard) to a file
name already present under an existing Archive subdirectory fails with
`FileExistsError` — the spec's `FileAlreadyArchivedError`.  The error is
raised ahead of the reshaping chain and the `to_csv` call, so nothing is
written: the `.ok` payload carrying the written file never arises. -/
theorem export_for_oracle_archived (disk : Disk) (codes : List (String × String))
    (lp_data : DataFrame) (path file_name : String)
    (hdate : lp_data.colIdx "date" ≠ none)
    (hdir : disk.isdir (path ++ "Archive") = true)
    (hfile : disk.fileExists (path ++ "Archive\\" ++ file_name) = true) :
    export_for_oracle disk codes lp_data path (some file_name) =
      .error .fileAlreadyArchived := by
  simp [export_for_oracle, hdate, hdir, hfile]

theorem export_for_oracle_archived_witness :
    export_for_oracle ⟨fun _ => true, fun _ => true⟩ [] ⟨["date"], []⟩ "p/" (some "f.txt") =
      .error .fileAlreadyArchived :=
  export_for_oracle_archived _ _ _ _ _ (by decide) rfl rfl

/-- **C9**: the archive guard short-circuits on `os.path.isdir(path +
'Archive')` — a literal string concatenation with no separator inserted.
Whenever that concatenated directory does not exist, no archive-conflict
error can be raised and (for a table with `date` and `segment` columns, as
every combined table has) the output file is written — regardless of what
`disk.fileExists` says about the archived file of the same name, which the
short-circuited `and` never queries. -/
theorem export_for_oracle_no_archive_dir (disk : Disk) (codes : List (String × String))
    (lp_data : DataFrame) (path file_name : String)
    (hdate : lp_data.colIdx "date" ≠ none)
    (hseg : lp_data.colIdx "segment" ≠ none)
    (hdir : disk.isdir (path ++ "Archive") = false) :
    export_for_oracle disk codes lp_data path (some file_name) =
      .ok (path ++ file_name, exportRows codes lp_data) := by
  simp [export_for_oracle, hdate, hseg, hdir]

theorem export_for_oracle_no_archive_dir_witness :
    export_for_oracle ⟨fun _ => false, fun _ => true⟩ [] ⟨["segment", "date"], []⟩ "p/"
        (some "f.txt") =
      .ok ("p/f.txt", exportRows [] ⟨["segment", "date"], []⟩) :=
  export_for_oracle_no_archive_dir _ _ _ _ _ (by decide) (by decide) rfl

/-! ## C10 — the exporter does not mutate its input -/

/-- **C10**: `export_for_oracle` leaves its `lp_data` argument unchanged.
In the heap model, each step of the method chain of lines 181-190 —
`set_index`, `join`, `reset_index`, `set_index`, `assign`, `sort_values`,
`sort_index`, all called with their non-inplace pandas defaults — only
allocates fresh objects, so after the call (on every outcome, success or
error) the caller's reference still holds the original table with the same
columns, rows and values. -/
theorem export_for_oracle_heap_preserves (disk : Disk) (codes : List (String × String))
    (h : List PdObj) (r : Nat) (path : String) (file_name? : Option String)
    (lp : DataFrame) (hr : h.get? r = some (.df lp)) :
    (export_for_oracle_heap disk codes h r path file_name?).1.get? r = some (.df lp) := by
  have hlt : r < h.length := (List.get?_eq_some.mp hr).1
  simp only [export_for_oracle_heap, hr]
  split
  · exact hr
  · split
    · exact hr
    · split
      · exact hr
      · split
        · exact hr
        · rw [List.get?_append hlt]
          exact hr

theorem export_for_oracle_heap_preserves_witness :
    (export_for_oracle_heap ⟨fun _ => false, fun _ => false⟩ []
        [PdObj.df ⟨["segment", "date"], []⟩] 0 "p/" (some "f.txt")).1.get? 0 =
      some (.df ⟨["segment", "date"], []⟩) :=
  export_for_oracle_heap_preserves _ _ _ _ _ _ _ (by decide)

/-! ## Sorting helper lemmas -/

theorem mem_insertLe {le : α → α → Bool} {a x : α} {l : List α} :
    x ∈ insertLe le a l ↔ x = a ∨ x ∈ l := by
  induction l with
  | nil => simp [insertLe]
  | cons b t ih =>
      simp only [insertLe]
      split <;> simp only [List.mem_cons, ih] <;> tauto

theorem mem_sortLe {le : α → α → Bool} {x : α} {l : List α} :
    x ∈ sortLe le l ↔ x ∈ l := by
  induction l with
  | nil => simp [sortLe]
  | cons a t ih => simp [sortLe, mem_insertLe, ih]

theorem insertLe_pairwise (le : α → α → Bool)
    (htot : ∀ a b, le a b = true ∨ le b a = true)
    (htrans : ∀ a b c, le a b = true → le b c = true → le a c = true)
    {a : α} {s : List α}
    (hs : s.Pairwise (fun x y => le x y = true)) :
    (insertLe le a s).Pairwise (fun x y => le x y = true) := by
  induction s with
  | nil => simp [insertLe]
  | cons b t ih =>
      rw [List.pairwise_cons] at hs
      obtain ⟨hb, ht⟩ := hs
      simp only [insertLe]
      split
      · rename_i hab
        rw [List.pairwise_cons]
        refine ⟨?_, ?_⟩
        · intro y hy
          rcases List.mem_cons.mp hy with rfl | hyt
          · exact hab
          · exact htrans a b y hab (hb y hyt)
        · rw [List.pairwise_cons]
          exact ⟨hb, ht⟩
      · rename_i hab
        have hba : le b a = true := by
          rcases htot a b with h | h
          · exact absurd h hab
          · exact h
        rw [List.pairwise_cons]
        refine ⟨?_, ?_⟩
        · intro y hy
          rcases mem_insertLe.mp hy with rfl | hyt
          · exact hba
          · exact hb y hyt
        · exact ih ht

theorem sortLe_pairwise (le : α → α → Bool)
    (htot : ∀ a b, le a b = true ∨ le b a = true)
    (htrans : ∀ a b c, le a b = true → le b c = true → le a c = true)
    (l : List α) :
    (sortLe le l).Pairwise (fun x y => le x y = true) := by
  induction l with
  | nil => simp [sortLe]
  | cons a t ih => exact insertLe_pairwise le htot htrans ih
theorem charListLe_total (a : List Char) : ∀ b, charListLe a b = true ∨ charListLe b a = true := by
  induction a with
  | nil => intro b; left; rfl
  | cons x as ih =>
      intro b
      cases b with
      | nil => right; rfl
      | cons y bs =>
          by_cases h1 : x.toNat < y.toNat
          · left; simp [charListLe, h1]
          · by_cases h2 : y.toNat < x.toNat
            · right; simp [charListLe, h2]
            · simpa [charListLe, h1, h2] using ih bs

theorem charListLe_trans (a : List Char) : ∀ b c, charListLe a b = true →
    charListLe b c = true → charListLe a c = true := by
  induction a with
  | nil => intro b c _ _; rfl
  | cons x as ih =>
      intro b c h1 h2
      cases b with
      | nil => simp [charListLe] at h1
      | cons y bs =>
          cases c with
          | nil => simp [charListLe] at h2
          | cons z cs =>
              simp only [charListLe] at h1 h2 ⊢
              by_cases hxy : x.toNat < y.toNat
              · by_cases hyz : y.toNat < z.toNat
                · rw [if_pos (by omega)]
                · rw [if_neg hyz] at h2
                  by_cases hzy : z.toNat < y.toNat
                  · rw [if_pos hzy] at h2
                    exact absurd h2 (by simp)
                  · rw [if_pos (by omega)]
              · by_cases hyx : y.toNat < x.toNat
                · rw [if_neg hxy, if_pos hyx] at h1
                  exact absurd h1 (by simp)
                · rw [if_neg hxy, if_neg hyx] at h1
                  by_cases hyz : y.toNat < z.toNat
                  · rw [if_pos (by omega)]
                  · rw [if_neg hyz] at h2
                    by_cases hzy : z.toNat < y.toNat
                    · rw [if_pos hzy] at h2
                      exact absurd h2 (by simp)
                    · rw [if_neg hzy] at h2
                      rw [if_neg (by omega), if_neg (by omega)]
                      exact ih bs cs h1 h2

theorem idxLeCell_total (a b : Cell) : idxLeCell a b = true ∨ idxLeCell b a = true :=
  charListLe_total _ _

theorem idxLeCell_trans (a b c : Cell) (h1 : idxLeCell a b = true)
    (h2 : idxLeCell b c = true) : idxLeCell a c = true :=
  charListLe_trans _ _ _ h1 h2

theorem idxOf?_lt_length {c : String} : ∀ {l : List String} {i : Nat},
    idxOf? c l = some i → i < l.length
  | [], i, h => by simp [idxOf?] at h
  | x :: t, i, h => by
      simp only [idxOf?] at h
      split at h
      · injection h with h
        subst h
        simp
      · cases hr : idxOf? c t with
        | none => rw [hr] at h; exact Option.noConfusion h
        | some j =>
            rw [hr] at h
            simp only [Option.map_some'] at h
            injection h with h
            subst h
            have := idxOf?_lt_length hr
            simp only [List.length_cons]
            omega

theorem mem_sortValuesDate {f : IndexedFrame} {p : Cell × List Cell} :
    p ∈ f.sortValuesDate.rows ↔ p ∈ f.rows := by
  unfold IndexedFrame.sortValuesDate
  split
  · exact mem_sortLe
  · exact Iff.rfl

theorem mem_sortIndex {f : IndexedFrame} {p : Cell × List Cell} :
    p ∈ f.sortIndex.rows ↔ p ∈ f.rows := mem_sortLe

/-! ## C3 — the export join -/

/-- **C3**: the right join of line 183 keeps exactly the code-mapping
table's rows.  Every written row carries some mapping entry's destination
code as its first cell and is either the all-null data row of an entry
matched by no input row, or the data of an input row whose segment equals
that entry's source key — so an input row whose segment has no mapping
entry contributes nothing to the output.  Conversely, every mapping entry
matched by no input row produces a written row whose data cells (date and
hour columns) are all null.  (`hrect`: the input table is rectangular, as
every pandas frame is; `hclp`: a `C_LOAD_PROFILE` column in the input would
make the pandas join itself raise a column-overlap error.) -/
theorem export_join_semantics (codes : List (String × String)) (lp : DataFrame) (si : Nat)
    (hsi : lp.colIdx "segment" = some si)
    (hrect : ∀ r ∈ lp.rows, r.length = lp.cols.length)
    (hclp : "C_LOAD_PROFILE" ∉ lp.cols) :
    (∀ w ∈ exportRows codes lp,
        ∃ k c, (k, c) ∈ codes ∧
          (w = Cell.str c ::
              (List.replicate (lp.cols.eraseIdx si).length Cell.null ++ [Cell.null]) ∨
           ∃ r ∈ lp.rows, r.getD si Cell.null = Cell.str k ∧
             w = Cell.str c :: (r.eraseIdx si ++ [Cell.null]))) ∧
    (∀ k c, (k, c) ∈ codes →
        (∀ r ∈ lp.rows, r.getD si Cell.null ≠ Cell.str k) →
        Cell.str c :: (List.replicate (lp.cols.eraseIdx si).length Cell.null ++ [Cell.null])
          ∈ exportRows codes lp) := by
  have hsi2 : idxOf? "segment" lp.cols = some si := hsi
  have hsilt : si < lp.cols.length := idxOf?_lt_length hsi2
  have hclp1 : "C_LOAD_PROFILE" ∉ lp.cols.eraseIdx si :=
    fun hmem => hclp (List.eraseIdx_subset _ _ hmem)
  have hidx : idxOf? "C_LOAD_PROFILE" (lp.cols.eraseIdx si ++ ["C_LOAD_PROFILE"]) =
      some (lp.cols.eraseIdx si).length := idxOf?_append_self _ _ hclp1
  have hLcols : (lp.cols.eraseIdx si).length + 1 = lp.cols.length :=
    List.length_eraseIdx_add_one hsilt
  have hL : ∀ r ∈ lp.rows, (r.eraseIdx si).length = (lp.cols.eraseIdx si).length := by
    intro r hr
    have hrl := hrect r hr
    have h1 := List.length_eraseIdx_add_one (l := r) (i := si) (by omega)
    omega
  -- the second set_index reads the appended code column and strips it off
  have hgetD : ∀ (u : List Cell) (x : Cell), u.length = (lp.cols.eraseIdx si).length →
      (u ++ [x]).getD (lp.cols.eraseIdx si).length Cell.null = x := by
    intro u x hu
    rw [← hu]
    exact getD_of_get? (get?_append_length u x []) _
  have herase : ∀ (u : List Cell) (x : Cell), u.length = (lp.cols.eraseIdx si).length →
      (u ++ [x]).eraseIdx (lp.cols.eraseIdx si).length = u := by
    intro u x hu
    rw [← hu]
    exact eraseIdx_append_length u x
  unfold exportRows
  simp only [DataFrame.set_index, DataFrame.colIdx, hsi2, IndexedFrame.joinRight,
    IndexedFrame.resetIndexDrop, hidx, IndexedFrame.assignNull, eraseIdx_append_length]
  constructor
  · intro w hw
    unfold IndexedFrame.toCsvRows at hw
    rw [List.mem_map] at hw
    obtain ⟨p, hp, hwp⟩ := hw
    rw [mem_sortIndex, mem_sortValuesDate] at hp
    simp only [List.map_map, List.mem_map] at hp
    obtain ⟨q, hqJ, rfl⟩ := hp
    rw [List.mem_flatMap] at hqJ
    obtain ⟨e, he, hqe⟩ := hqJ
    obtain ⟨k, c⟩ := e
    refine ⟨k, c, he, ?_⟩
    split at hqe
    · -- no matching input row: the single null-filled entry
      rw [List.mem_singleton] at hqe
      subst hqe
      left
      rw [← hwp]
      simp only [Function.comp_apply]
      rw [hgetD _ _ (by rw [List.length_replicate]),
        herase _ _ (by rw [List.length_replicate])]
    · -- a matched input row
      rw [List.mem_map] at hqe
      obtain ⟨p0, hp0, hqe⟩ := hqe
      rw [List.mem_filter] at hp0
      obtain ⟨hp0m, hp0k⟩ := hp0
      rw [List.mem_map] at hp0m
      obtain ⟨r, hr, hp0r⟩ := hp0m
      have hp01 : p0.1 = r.getD si Cell.null := by rw [← hp0r]
      have hp02 : p0.2 = r.eraseIdx si := by rw [← hp0r]
      right
      refine ⟨r, hr, ?_, ?_⟩
      · have := of_decide_eq_true hp0k
        rw [hp01] at this
        exact this
      · subst hqe
        rw [← hwp]
        simp only [Function.comp_apply, hp02]
        rw [hgetD _ _ (hL r hr), herase _ _ (hL r hr)]
  · intro k c hkc hnone
    have hfilter : (List.filter (fun p => decide (p.1 = Cell.str k))
        (List.map (fun r => (r.getD si Cell.null, r.eraseIdx si)) lp.rows)) = [] := by
      rw [List.filter_eq_nil_iff]
      intro p0 hp0
      rw [List.mem_map] at hp0
      obtain ⟨r, hr, hp0r⟩ := hp0
      simp only [decide_eq_true_eq]
      rw [← hp0r]
      exact hnone r hr
    unfold IndexedFrame.toCsvRows
    rw [List.mem_map]
    refine ⟨(Cell.str c, List.replicate (lp.cols.eraseIdx si).length Cell.null ++ [Cell.null]),
      ?_, rfl⟩
    rw [mem_sortIndex, mem_sortValuesDate]
    simp only [List.map_map, List.mem_map]
    refine ⟨(Cell.str k, List.replicate (lp.cols.eraseIdx si).length Cell.null ++ [Cell.str c]),
      ?_, ?_⟩
    · rw [List.mem_flatMap]
      refine ⟨(k, c), hkc, ?_⟩
      rw [hfilter]
      simp
    · have h1 : (List.replicate (lp.cols.eraseIdx si).length Cell.null ++ [Cell.str c]).getD
          (lp.cols.eraseIdx si).length Cell.null = Cell.str c := by
        have hg := get?_append_length (List.replicate (lp.cols.eraseIdx si).length Cell.null)
          (Cell.str c) []
        rw [List.length_replicate] at hg
        exact getD_of_get? hg _
      have h2 : (List.replicate (lp.cols.eraseIdx si).length Cell.null ++ [Cell.str c]).eraseIdx
          (lp.cols.eraseIdx si).length = List.replicate (lp.cols.eraseIdx si).length Cell.null := by
        have he := eraseIdx_append_length (List.replicate (lp.cols.eraseIdx si).length Cell.null)
          (Cell.str c)
        rw [List.length_replicate] at he
        exact he
      simp only [Function.comp_apply, h1, h2]

/-- The C3 witness table: segment `S1` is mapped, segment `S3` is not, and
mapping entry `S9` matches no row. -/
def c3lp : DataFrame :=
  ⟨["segment", "date"], [[.str "S1", .date ⟨2017, 1, 1⟩], [.str "S3", .date ⟨2017, 1, 2⟩]]⟩

def c3codes : List (String × String) := [("S1", "B"), ("S9", "Z")]

theorem export_join_semantics_witness :
    Cell.str "Z" :: (List.replicate (c3lp.cols.eraseIdx 0).length Cell.null ++ [Cell.null])
      ∈ exportRows c3codes c3lp :=
  (export_join_semantics c3codes c3lp 0 (by decide) (by decide) (by decide)).2 "S9" "Z"
    (by decide) (by decide)

/-! ## C2 — the export sort order -/

/-- **C2** (amended): the rows written by `export_for_oracle` are sorted
by the mapped destination code (the `C_LOAD_PROFILE` index, each written
row's first cell) — date is **not** the primary sort key.
`.sort_values('date')` runs first and `.sort_index()` second, so the final
order is nondecreasing in the code.  Within equal codes the program
guarantees nothing: pandas' default sort kind carries no stability
guarantee, so no tie-order property is claimed or proved. -/
theorem export_sorted_by_code (codes : List (String × String)) (lp : DataFrame) :
    (exportRows codes lp).Pairwise (fun w1 w2 =>
      idxLeCell (w1.headD Cell.null) (w2.headD Cell.null) = true) := by
  unfold exportRows IndexedFrame.sortIndex IndexedFrame.toCsvRows
  rw [List.pairwise_map]
  exact List.Pairwise.imp (fun hab => hab)
    (sortLe_pairwise (fun r1 r2 : Cell × List Cell => idxLeCell r1.1 r2.1)
      (fun a b => idxLeCell_total _ _)
      (fun a b c ha hb => idxLeCell_trans _ _ _ ha hb) _)

/-- The C2 example: segment `S1` (the earlier date) maps to code `B`,
segment `S2` (the later date) to code `A`. -/
def c2lp : DataFrame :=
  ⟨["segment", "date"], [[.str "S1", .date ⟨2017, 1, 1⟩], [.str "S2", .date ⟨2017, 1, 2⟩]]⟩

def c2codes : List (String × String) := [("S1", "B"), ("S2", "A")]

/-- **C2** counterexample: with dates Jan 1 ↦ code `B` and Jan 2 ↦ code
`A`, the written file starts with the Jan 2 row (code `A`) and only then
the Jan 1 row (code `B`): the output is not ordered with date as the
primary key. -/
theorem export_sort_counterexample :
    export_for_oracle ⟨fun _ => false, fun _ => false⟩ c2codes c2lp "p/" (some "out.txt") =
      .ok ("p/out.txt",
        [[.str "A", .date ⟨2017, 1, 2⟩, .null],
         [.str "B", .date ⟨2017, 1, 1⟩, .null]]) ∧
    Date.key ⟨2017, 1, 1⟩ < Date.key ⟨2017, 1, 2⟩ :=
  ⟨by decide, by decide⟩


end Delmarva
